import Mathlib

set_option autoImplicit false

/-!
Shallow embedding of the object-resolution and crypto-interception core of
libp11 (src/util_uri.c and src/p11_pkey.c), together with proofs that settle
the specification claims about it.  Each definition mirrors one C function;
external collaborators (the PKCS#11 module, the OpenSSL UI) are abstracted as
oracle parameters.
-/

namespace Libp11

/-! ## Hex codec (util_uri.c, hex_to_bin) -/

/-- Numeric value of a hex digit, following the character ranges tested inside
`hex_to_bin` (util_uri.c lines 113-118).  `none` for characters outside
0-9, a-f, A-F. -/
def hexVal (c : Char) : Option Nat :=
  if '0' ≤ c ∧ c ≤ '9' then some (c.toNat - '0'.toNat)
  else if 'a' ≤ c ∧ c ≤ 'f' then some (c.toNat - 'a'.toNat + 10)
  else if 'A' ≤ c ∧ c ≤ 'F' then some (c.toNat - 'A'.toNat + 10)
  else none

/-- The body of `hex_to_bin`'s outer `while` loop (util_uri.c lines 106-137),
with the two-iteration inner nybble loop unrolled.  `left` is the remaining
output capacity, `acc` the bytes already written.  Each iteration reads up to
two nybbles (stopping early at `':'` or end of input), skips one following
`':'`, fails if no capacity is left, and appends the byte.  `none` models the
`return 0` failure paths. -/
def hex_to_bin_loop : List Char → Nat → List Nat → Option (List Nat)
  | [], _, acc => some acc
  | c :: rest, left, acc =>
    if c = ':' then
      -- inner loop consumed no nybble: byte = 0, then the ':' is skipped
      if left = 0 then none else hex_to_bin_loop rest (left - 1) (acc ++ [0])
    else
      match hexVal c with
      | none => none
      | some v1 =>
        match rest with
        | [] => if left = 0 then none else some (acc ++ [v1])
        | d :: rest2 =>
          if d = ':' then
            -- one nybble read, stop at ':', skip it
            if left = 0 then none else hex_to_bin_loop rest2 (left - 1) (acc ++ [v1])
          else
            match hexVal d with
            | none => none
            | some v2 =>
              match rest2 with
              | ':' :: rest3 =>
                if left = 0 then none
                else hex_to_bin_loop rest3 (left - 1) (acc ++ [v1 * 16 + v2])
              | other =>
                if left = 0 then none
                else hex_to_bin_loop other (left - 1) (acc ++ [v1 * 16 + v2])
  termination_by structural s => s

/-- Result of `hex_to_bin`: the returned flag, the value stored through the
in/out parameter `*outlen`, and the bytes written to `out` on success. -/
structure HexToBinResult where
  ret : Bool
  outlen : Nat
  out : List Nat
deriving Repr, DecidableEq

/-- Function `hex_to_bin` (util_uri.c lines 94-141).  `input = none` models a NULL
`in` pointer; `cap` is the capacity passed in through `*outlen`.  An empty or
NULL input succeeds with zero length; any failure path stores 0 through
`*outlen` and returns 0. -/
def hex_to_bin (input : Option (List Char)) (cap : Nat) : HexToBinResult :=
  match input with
  | none => ⟨true, 0, []⟩
  | some [] => ⟨true, 0, []⟩
  | some s =>
    match hex_to_bin_loop s cap [] with
    | none => ⟨false, 0, []⟩
    | some out => ⟨true, out.length, out⟩

/-! ## Percent decoder (util_uri.c, parse_uri_attr_len) -/

/-- Outcome of the `parse_uri_attr_len` loop: either the bytes produced and
the input left unconsumed when the loop stopped, or failure (`ret = 0`). -/
inductive PuaRes where
  | ok (out : List Nat) (remaining : List Char)
  | fail
deriving Repr, DecidableEq

/-- The `while (ret && attrlen && outlen < max)` loop of `parse_uri_attr_len`
(util_uri.c lines 401-421), with `room = max - outlen` counting the remaining
output capacity.  A literal byte is copied as is; a `%` escape needs at least
three input characters and one byte decoded by `hex_to_bin` on the two-char
string with capacity 1. -/
def puaRec : List Char → Nat → PuaRes
  | [], _ => .ok [] []
  | c :: rest, 0 => .ok [] (c :: rest)
  | c :: rest, room + 1 =>
    if c = '%' then
      match rest with
      | d :: e :: rest2 =>
        let r := hex_to_bin (some [d, e]) 1
        if r.ret then
          match puaRec rest2 room with
          | .ok out rem => .ok (r.out.headD 0 :: out) rem
          | .fail => .fail
        else .fail
      | _ => .fail  -- attrlen < 3
    else
      match puaRec rest room with
      | .ok out rem => .ok (c.toNat :: out) rem
      | .fail => .fail

/-- Function `parse_uri_attr_len` (util_uri.c lines 394-429).  Literal characters are
stored as their byte values.  After the loop, `if (attrlen && outlen == max)
ret = 0`: leftover input with a full output buffer is a failure.  On success
the bytes written are returned; their number is the value stored through
`*field_len`. -/
def parse_uri_attr_len (attr : List Char) (max : Nat) : Option (List Nat) :=
  match puaRec attr max with
  | .fail => none
  | .ok out rem => if rem ≠ [] ∧ out.length = max then none else some out

/-! ## PIN file reading (util_uri.c, read_from_file / parse_pin_source) -/

/-- Line semantics of `fgets`/`BIO_gets`: read at most `n` characters, stopping
after (and keeping) a newline. -/
def takeLine : List Char → Nat → List Char
  | _, 0 => []
  | [], _ => []
  | c :: rest, n + 1 => if c = '\n' then [c] else c :: takeLine rest n

/-- Result of `read_from_file`: return flag, the effective bytes of `field`,
and the value stored through `*field_len`. -/
structure ReadFileResult where
  ret : Bool
  field : List Char
  field_len : Nat
deriving Repr, DecidableEq

/-- Function `read_from_file` (util_uri.c lines 454-477).  `contents = none` models a
path that cannot be opened.  `BIO_gets(fp, txt, *field_len + 1)` reads at most
`*field_len` characters of the first line, keeping a trailing newline; on a
positive return the line is copied to `field` and its length stored, else the
length is zeroed.  Either way the function returns 1 once the file opened. -/
def read_from_file (contents : Option (List Char)) (cap : Nat) : ReadFileResult :=
  match contents with
  | none => ⟨false, [], cap⟩
  | some content =>
    let txt := takeLine content cap
    if txt.length > 0 then ⟨true, txt, txt.length⟩ else ⟨true, [], 0⟩

/-- Function `parse_pin_source` (util_uri.c lines 479-502), starting from the
percent-decoded attribute value `val` (the `parse_uri_attr` step).  `fs` maps
a path to the contents of that file, `none` when it cannot be opened.  A
`file:` prefix (compared case-insensitively) is stripped; a leading `'|'` is
rejected; anything else is used as a path directly. -/
def parse_pin_source (val : List Char) (fs : List Char → Option (List Char))
    (cap : Nat) : Bool × List Char × Nat :=
  if (val.take 5).map Char.toLower = ['f', 'i', 'l', 'e', ':'] then
    let r := read_from_file (fs (val.drop 5)) cap
    (r.ret, r.field, r.field_len)
  else
    match val with
    | '|' :: _ => (false, [], cap)
    | _ =>
      let r := read_from_file (fs val) cap
      (r.ret, r.field, r.field_len)

/-- Modelled from the spec: the PIN the spec promises from a `pin-source`
file (spec §6: "either inline value, or a file path (optionally
`file:`-prefixed); first line only, trailing newline stripped").  Used only to
compare against the behaviour of `read_from_file`. -/
def pinFromFileSpec (content : List Char) (cap : Nat) : List Char :=
  let line := takeLine content cap
  if line.getLast? = some '\n' then line.dropLast else line

/-! ## RSA method interception (p11_pkey.c) -/

/-- OpenSSL RSA padding code `RSA_PKCS1_PSS_PADDING`. -/
def RSA_PKCS1_PSS_PADDING : Int := 6

/-- OpenSSL RSA padding code `RSA_PKCS1_OAEP_PADDING`. -/
def RSA_PKCS1_OAEP_PADDING : Int := 4

/-- PKCS#11 mechanism code `CKM_RSA_PKCS` (the value matched by the `switch`
in `pkcs11_try_pkey_rsa_decrypt`; numerically it equals OpenSSL's
`RSA_PKCS1_PADDING`). -/
def CKM_RSA_PKCS : Int := 1

/-- The digest identities distinguished by `pkcs11_md2ckm`/`pkcs11_md2ckg`
(p11_pkey.c lines 170-204). -/
inductive MDKind where
  | sha1
  | sha224
  | sha256
  | sha384
  | sha512
  | other
deriving Repr, DecidableEq

/-- An `EVP_MD`: its NID (as far as the translation distinguishes them) and
its `EVP_MD_size`. -/
structure EVPMD where
  kind : MDKind
  size : Nat
deriving Repr, DecidableEq

/-- Function `pkcs11_md2ckm` (p11_pkey.c lines 170-186): digest NID to PKCS#11 digest
mechanism (`CKM_SHA_1` etc., values from the PKCS#11 headers); 0 for an
unmappable digest. -/
def pkcs11_md2ckm (md : EVPMD) : Nat :=
  match md.kind with
  | .sha1 => 0x220
  | .sha224 => 0x255
  | .sha256 => 0x250
  | .sha512 => 0x270
  | .sha384 => 0x260
  | .other => 0

/-- Function `pkcs11_md2ckg` (p11_pkey.c lines 188-204): digest NID to PKCS#11 MGF1
code (`CKG_MGF1_SHA1` etc.); 0 for an unmappable digest. -/
def pkcs11_md2ckg (md : EVPMD) : Nat :=
  match md.kind with
  | .sha1 => 1
  | .sha224 => 5
  | .sha256 => 2
  | .sha512 => 4
  | .sha384 => 3
  | .other => 0

/-- The attributes of an `EVP_PKEY` consulted by `pkcs11_params_pss`:
`EVP_PKEY_size` (bytes) and `EVP_PKEY_bits`. -/
structure EvpPkey where
  size : Nat
  bits : Nat
deriving Repr, DecidableEq

/-- The fields of `CK_RSA_PKCS_PSS_PARAMS` filled in by `pkcs11_params_pss`. -/
structure PssParams where
  hashAlg : Nat
  mgf : Nat
  sLen : Int
deriving Repr, DecidableEq

/-- Function `pkcs11_params_pss` (p11_pkey.c lines 206-247).  The arguments are the
results of the `EVP_PKEY_CTX` queries: signature digest, MGF1 digest, the
framework salt-length code, and the key (`none` models a failing query or a
NULL key).  Salt-length code -1 becomes the digest size; -2 becomes
`EVP_PKEY_size - EVP_MD_size - 2`, decremented once more when
`(EVP_PKEY_bits - 1) & 7 == 0`, with a negative result rejected as integer
underflow.  Any other code is passed through.  An unmappable digest on either
slot fails.  `none` models the C return value -1. -/
def pkcs11_params_pss (sig_md mgf1_md : Option EVPMD) (saltlen : Option Int)
    (pkey : Option EvpPkey) : Option PssParams :=
  match sig_md with
  | none => none
  | some smd =>
    match mgf1_md with
    | none => none
    | some gmd =>
      match saltlen with
      | none => none
      | some sl =>
        let salt? : Option Int :=
          if sl = -1 then some (smd.size : Int)
          else if sl = -2 then
            match pkey with
            | none => none
            | some pk =>
              let s0 : Int := (pk.size : Int) - (smd.size : Int) - 2
              let s1 : Int := if ((pk.bits : Int) - 1) % 8 = 0 then s0 - 1 else s0
              if s1 < 0 then none else some s1
          else some sl
        match salt? with
        | none => none
        | some salt =>
          if pkcs11_md2ckm smd = 0 ∨ pkcs11_md2ckg gmd = 0 then none
          else some ⟨pkcs11_md2ckm smd, pkcs11_md2ckg gmd, salt⟩

/-- The fields of `CK_RSA_PKCS_OAEP_PARAMS` filled in by
`pkcs11_params_oaep` (the source label is always left empty). -/
structure OaepParams where
  hashAlg : Nat
  mgf : Nat
deriving Repr, DecidableEq

/-- Function `pkcs11_params_oaep` (p11_pkey.c lines 249-275). -/
def pkcs11_params_oaep (oaep_md mgf1_md : Option EVPMD) : Option OaepParams :=
  match oaep_md with
  | none => none
  | some omd =>
    match mgf1_md with
    | none => none
    | some gmd =>
      if pkcs11_md2ckm omd = 0 ∨ pkcs11_md2ckg gmd = 0 then none
      else some ⟨pkcs11_md2ckm omd, pkcs11_md2ckg gmd⟩

/-- Everything `pkcs11_try_pkey_rsa_sign` reads: presence of the chain of
objects leading to the token key, the per-call `EVP_PKEY_CTX` queries, the
`cpriv->sign_initialized` flag, and the PKCS#11 return values (`CKR` codes,
0 = `CKR_OK`) the token would report for each call the function may issue. -/
structure SignState where
  pkey_present : Bool
  rsa_present : Bool
  key_present : Bool
  ctx_present : Bool
  sig_md : Option EVPMD
  mgf1_md : Option EVPMD
  saltlen : Option Int
  pkeyInfo : Option EvpPkey
  tbslen : Nat
  sign_initialized : Bool
  padding : Int
  always_authenticate : Bool
  rv_sign_init : Nat
  rv_auth : Nat
  rv_sign : Nat
  sig_null : Bool
  token_size : Nat
deriving Repr, DecidableEq

/-- Outcome of the `try` functions: the C return value (1 or -1), whether the
token primitive (`C_Sign` / `C_Decrypt`) was issued, and the updated
`cpriv` multi-call flag. -/
structure TryOutcome where
  ret : Int
  primitive_called : Bool
  initialized_after : Bool
deriving Repr, DecidableEq

/-- Function `pkcs11_try_pkey_rsa_sign` (p11_pkey.c lines 277-350).  Returns -1 on
every failure: the "not applicable" checks before any token call (missing
key/context, wrong digest length, non-PSS padding, untranslatable PSS
parameters) and equally a `CKR` failure from `C_SignInit`,
`pkcs11_authenticate` or `C_Sign` once issued. -/
def pkcs11_try_pkey_rsa_sign (s : SignState) : TryOutcome :=
  if !s.pkey_present then ⟨-1, false, s.sign_initialized⟩
  else if !s.rsa_present then ⟨-1, false, s.sign_initialized⟩
  else if !s.key_present then ⟨-1, false, s.sign_initialized⟩
  else if !s.ctx_present then ⟨-1, false, s.sign_initialized⟩
  else
    match s.sig_md with
    | none => ⟨-1, false, s.sign_initialized⟩
    | some md =>
      if s.tbslen ≠ md.size then ⟨-1, false, s.sign_initialized⟩
      else
        -- `rv` after the `if (!cpriv->sign_initialized)` block;
        -- `none` models the early `return -1` before any token call
        let initStage : Option Nat :=
          if !s.sign_initialized then
            if s.padding ≠ RSA_PKCS1_PSS_PADDING then none
            else
              match pkcs11_params_pss s.sig_md s.mgf1_md s.saltlen s.pkeyInfo with
              | none => none
              | some _ =>
                some (if s.rv_sign_init = 0 && s.always_authenticate
                      then s.rv_auth else s.rv_sign_init)
          else some 0
        match initStage with
        | none => ⟨-1, false, s.sign_initialized⟩
        | some rv1 =>
          let rv2 := if rv1 = 0 then s.rv_sign else rv1
          let prim := rv1 = 0
          let si := rv2 = 0 && s.sig_null
          if rv2 ≠ 0 then ⟨-1, prim, si⟩ else ⟨1, prim, si⟩

/-- Outcome of the installed wrapper: the value returned to OpenSSL, whether
the token primitive was issued, and whether the original software
implementation was invoked. -/
structure WrapOutcome where
  ret : Int
  primitive_called : Bool
  delegated : Bool
deriving Repr, DecidableEq

/-- Function `pkcs11_pkey_rsa_sign` (p11_pkey.c lines 352-362): any negative result of
the try function is replaced by a call to the saved original
`orig_pkey_rsa_sign`, whose result is `orig_result`. -/
def pkcs11_pkey_rsa_sign (s : SignState) (orig_result : Int) : WrapOutcome :=
  let t := pkcs11_try_pkey_rsa_sign s
  if t.ret < 0 then ⟨orig_result, t.primitive_called, true⟩
  else ⟨t.ret, t.primitive_called, false⟩

/-- Everything `pkcs11_try_pkey_rsa_decrypt` reads, as for `SignState`.
`outlen` is the caller's `*outlen`; `token_size` the size `C_Decrypt`
reports. -/
structure DecryptState where
  pkey_present : Bool
  rsa_present : Bool
  key_present : Bool
  ctx_present : Bool
  decrypt_initialized : Bool
  padding : Int
  oaep_md : Option EVPMD
  mgf1_md : Option EVPMD
  always_authenticate : Bool
  rv_decrypt_init : Nat
  rv_auth : Nat
  rv_decrypt : Nat
  out_null : Bool
  outlen : Nat
  token_size : Nat
deriving Repr, DecidableEq

/-- Outcome of `pkcs11_try_pkey_rsa_decrypt`, with the value left in
`*outlen`. -/
structure DecryptOutcome where
  ret : Int
  primitive_called : Bool
  initialized_after : Bool
  outlen_after : Nat
deriving Repr, DecidableEq

/-- Function `pkcs11_try_pkey_rsa_decrypt` (p11_pkey.c lines 364-481).  OAEP padding
translates parameters (failing on unmappable digests), `CKM_RSA_PKCS` uses no
parameter, anything else is unsupported; unlike the sign path the
`always_authenticate` re-authentication runs even when the mechanism was
initialized by a previous call.  After a successful `C_Decrypt`, a non-NULL
output buffer smaller than the produced size is itself a -1 failure. -/
def pkcs11_try_pkey_rsa_decrypt (s : DecryptState) : DecryptOutcome :=
  if !s.pkey_present then ⟨-1, false, s.decrypt_initialized, s.outlen⟩
  else if !s.rsa_present then ⟨-1, false, s.decrypt_initialized, s.outlen⟩
  else if !s.key_present then ⟨-1, false, s.decrypt_initialized, s.outlen⟩
  else if !s.ctx_present then ⟨-1, false, s.decrypt_initialized, s.outlen⟩
  else
    let initStage : Option Nat :=
      if !s.decrypt_initialized then
        if s.padding = RSA_PKCS1_OAEP_PADDING then
          match pkcs11_params_oaep s.oaep_md s.mgf1_md with
          | none => none
          | some _ => some s.rv_decrypt_init
        else if s.padding = CKM_RSA_PKCS then some s.rv_decrypt_init
        else none
      else some 0
    match initStage with
    | none => ⟨-1, false, s.decrypt_initialized, s.outlen⟩
    | some rv0 =>
      let rv1 := if rv0 = 0 && s.always_authenticate then s.rv_auth else rv0
      let rv2 := if rv1 = 0 then s.rv_decrypt else rv1
      let prim := rv1 = 0
      let size := s.token_size
      let di := rv2 = 0 && s.out_null
      if rv2 ≠ 0 then ⟨-1, prim, di, s.outlen⟩
      else if !s.out_null && decide (s.outlen < size) then ⟨-1, prim, di, s.outlen⟩
      else
        let outlen' := if s.outlen ≥ size || s.out_null || s.outlen = 0
                       then size else s.outlen
        ⟨1, prim, di, outlen'⟩

/-- Function `pkcs11_pkey_rsa_decrypt` (p11_pkey.c lines 483-493): any negative result
of the try function is replaced by a call to the saved original
`orig_pkey_rsa_decrypt`. -/
def pkcs11_pkey_rsa_decrypt (s : DecryptState) (orig_result : Int) : WrapOutcome :=
  let t := pkcs11_try_pkey_rsa_decrypt s
  if t.ret < 0 then ⟨orig_result, t.primitive_called, true⟩
  else ⟨t.ret, t.primitive_called, false⟩

/-! ## PIN lifecycle (util_uri.c, ctx_destroy_pin / ctx_get_pin / ctx_login) -/

/-- Constant `MAX_PIN_LENGTH` (util.h, not among the provided sources; the spec only
says "a fixed maximum length", so the concrete value is immaterial here). -/
def MAX_PIN_LENGTH : Nat := 256

/-- Observable actions on the per-context PIN buffer, recorded in order. -/
inductive PinEvent where
  /-- `OPENSSL_malloc` of a fresh PIN buffer of `len` bytes (zero-filled). -/
  | alloc (len : Nat)
  /-- `OPENSSL_cleanse(ctx->pin, ctx->pin_length)` over `len` bytes. -/
  | cleansed (len : Nat)
  /-- `OPENSSL_free(ctx->pin)`; `content` is the buffer's bytes at that
  moment. -/
  | freed (content : List Nat)
  /-- `PKCS11_login` issued with this (possibly NULL) PIN. -/
  | loginCall (pin : Option (List Nat))
deriving Repr, DecidableEq

/-- The PIN-related fields of `ENGINE_CTX`.  `pin = none` models a NULL
`ctx->pin`; the list is the buffer's `pin_length` bytes. -/
structure PinCtx where
  pin : Option (List Nat)
  forced_pin : Bool
  force_login : Bool
deriving Repr, DecidableEq

/-- Function `ctx_destroy_pin` (util_uri.c lines 148-157): a present buffer is
cleansed over its length, freed, and the fields reset. -/
def ctx_destroy_pin (c : PinCtx) : PinCtx × List PinEvent :=
  match c.pin with
  | none => (c, [])
  | some buf =>
    ({ c with pin := none, forced_pin := false },
     [.cleansed buf.length, .freed (List.replicate buf.length 0)])

/-- Function `ctx_get_pin` (util_uri.c lines 163-203).  `uiOk` models `UI_new_method`
succeeding; `entered = none` models a failing prompt construction, input
registration or `UI_process` (no PIN typed), `some p` the PIN the user typed
(at most `MAX_PIN_LENGTH` bytes, stored in the zero-filled buffer).  The old
buffer is destroyed before the fresh one is allocated. -/
def ctx_get_pin (c : PinCtx) (uiOk : Bool) (entered : Option (List Nat)) :
    Bool × PinCtx × List PinEvent :=
  if !uiOk then (false, c, [])
  else
    let d := ctx_destroy_pin c
    let zeroBuf : List Nat := List.replicate MAX_PIN_LENGTH 0
    let c2 : PinCtx := { d.1 with pin := some zeroBuf }
    match entered with
    | none => (false, c2, d.2 ++ [.alloc MAX_PIN_LENGTH])
    | some p =>
      (true,
       { c2 with pin := some (p.take MAX_PIN_LENGTH ++
           List.replicate (MAX_PIN_LENGTH - p.length) 0) },
       d.2 ++ [.alloc MAX_PIN_LENGTH])

/-- The token attributes consulted by the resolution engine. -/
structure PKCS11_TOKEN where
  label : String
  manufacturer : String
  serialnr : String
  model : String
  initialized : Bool
  loginRequired : Bool
  secureLogin : Bool
  userPinSet : Bool
  readOnly : Bool
deriving Repr, DecidableEq

/-- Function `ctx_login` (util_uri.c lines 226-261).  `loggedIn` is the result of
`slot_logged_in` (a failing `PKCS11_is_logged_in` query already counts as
"not logged in" there); `uiOk`/`entered` feed `ctx_get_pin`;
`pkcs11LoginOk` abstracts the `PKCS11_login` collaborator call outcome for a
given PIN.  Memory-allocation failures are not modelled.  Returns the C
result, the updated context, and the PIN events in order. -/
def ctx_login (c : PinCtx) (tok : PKCS11_TOKEN) (loggedIn : Bool)
    (uiOk : Bool) (entered : Option (List Nat))
    (pkcs11LoginOk : Option (List Nat) → Bool) :
    Bool × PinCtx × List PinEvent :=
  if !(c.force_login || tok.loginRequired) || loggedIn then (true, c, [])
  else
    -- acquire a PIN (or a NULL PIN for secure-keypad login)
    let acquire : Bool × PinCtx × List PinEvent :=
      if tok.secureLogin && !c.forced_pin then
        let d := ctx_destroy_pin c
        (true, d.1, d.2)
      else
        match c.pin with
        | some _ => (true, c, [])
        | none =>
          -- the freshly allocated zero buffer is immediately replaced
          -- inside ctx_get_pin
          let c1 : PinCtx := { c with pin := some (List.replicate MAX_PIN_LENGTH 0) }
          let g := ctx_get_pin c1 uiOk entered
          if g.1 then (true, g.2.1, .alloc MAX_PIN_LENGTH :: g.2.2)
          else
            let d := ctx_destroy_pin g.2.1
            (false, d.1, (.alloc MAX_PIN_LENGTH :: g.2.2) ++ d.2)
    if !acquire.1 then (false, acquire.2.1, acquire.2.2)
    else
      let c1 := acquire.2.1
      let ev := acquire.2.2 ++ [.loginCall c1.pin]
      if pkcs11LoginOk c1.pin then (true, c1, ev)
      else
        let d := ctx_destroy_pin c1
        (false, d.1, ev ++ d.2)

/-! ## Slot matching and object lookup (util_uri.c, ctx_try_load_object) -/

/-- A slot as consulted by the lookup: its `PKCS11_get_slotid_from_slot`
value and the (possibly absent) token. -/
structure PKCS11_SLOT where
  id : Nat
  token : Option PKCS11_TOKEN
deriving Repr, DecidableEq

/-- The token filter built by `parse_pkcs11_uri` (`match_tok`): each field is
only compared when present. -/
structure TokenFilter where
  label : Option String
  manufacturer : Option String
  serialnr : Option String
  model : Option String
deriving Repr, DecidableEq

/-- One optional filter field against a token attribute
(`!match_tok->field || !strcmp(match_tok->field, slot->token->field)`). -/
def fieldMatches (f : Option String) (v : String) : Bool :=
  match f with
  | none => true
  | some x => x == v

/-- The token-attribute part of the per-slot match (util_uri.c lines
707-715). -/
def token_filter_matches (mt : TokenFilter) (t : PKCS11_TOKEN) : Bool :=
  fieldMatches mt.label t.label && fieldMatches mt.manufacturer t.manufacturer &&
  fieldMatches mt.serialnr t.serialnr && fieldMatches mt.model t.model

/-- The per-slot match decision of the enumeration loop (util_uri.c lines
702-717): matched by explicit slot number, or by the token filter when a
token is present. -/
def slot_matched (slot_nr : Int) (mt : Option TokenFilter) (s : PKCS11_SLOT) : Bool :=
  (slot_nr != -1 && slot_nr == (s.id : Int)) ||
  (match mt, s.token with
   | some f, some t => token_filter_matches f t
   | _, _ => false)

/-- The `matched_slots` array built by the loop (util_uri.c lines 683-730):
matching slots that actually hold a token, in enumeration order. -/
def matchedSlots (slots : List PKCS11_SLOT) (slot_nr : Int)
    (mt : Option TokenFilter) : List PKCS11_SLOT :=
  slots.filter (fun s => slot_matched slot_nr mt s && s.token.isSome)

/-- Modelled from the spec: `PKCS11_find_token` (defined in p11_slot.c, which
is not among the provided sources).  Spec §4.3: with no token filter and no
slot number, "fall back to any token present, pick exactly one if exactly one
slot has a token, else fail with no-tokens-found". -/
def PKCS11_find_token (slots : List PKCS11_SLOT) : Option PKCS11_SLOT :=
  match slots.filter (fun s => s.token.isSome) with
  | [s] => some s
  | _ => none

/-- The `init_slots`/`uninit_slots` split of the multiple-match branch
(util_uri.c lines 798-811); slots without a token are skipped. -/
def partitionInit : List PKCS11_SLOT → List PKCS11_SLOT × List PKCS11_SLOT
  | [] => ([], [])
  | s :: rest =>
    let p := partitionInit rest
    match s.token with
    | none => p
    | some t => if t.initialized then (s :: p.1, p.2) else (p.1, s :: p.2)

/-- The uninitialized-token scan (util_uri.c lines 846-856): call
`match_func` on each token in turn, stopping at the first hit.  Returns the
object found and the ids of the slots searched, in order.  (Slots without a
token cannot occur here; they are skipped.) -/
def scanUninit : List PKCS11_SLOT → (PKCS11_TOKEN → Option Nat) →
    Option Nat × List Nat
  | [], _ => (none, [])
  | s :: rest, f =>
    match s.token with
    | none => scanUninit rest f
    | some t =>
      match f t with
      | some o => (some o, [s.id])
      | none =>
        let r := scanUninit rest f
        (r.1, s.id :: r.2)

/-- The public-object scan of the no-login branch (util_uri.c lines 865-877):
like `scanUninit`, but a slot without a token stops the whole scan
(`break`). -/
def scanPublic : List PKCS11_SLOT → (PKCS11_TOKEN → Option Nat) →
    Option Nat × List Nat
  | [], _ => (none, [])
  | s :: rest, f =>
    match s.token with
    | none => (none, [])
    | some t =>
      match f t with
      | some o => (some o, [s.id])
      | none =>
        let r := scanPublic rest f
        (r.1, s.id :: r.2)

/-- Inputs of one `ctx_try_load_object` run: the slot enumeration, the parsed
selector (`slot_nr = -1` when unspecified, `match_tok` from a pkcs11: URI),
the context's force-login flag, and oracles for the outcome of `ctx_login` on
a slot (by id) and of `match_func` on a token (the object being a non-NULL
handle). -/
structure LookupArgs where
  slots : List PKCS11_SLOT
  slot_nr : Int
  match_tok : Option TokenFilter
  force_login : Bool
  loginOk : Nat → Bool
  matchFunc : PKCS11_TOKEN → Option Nat

/-- Result of `ctx_try_load_object`: the object, the ids of the slots on
which `ctx_login` was invoked (in order), whether the "Multiple matching
slots; will not try to login" warning (listing the candidates) was emitted,
and the ids of the slots whose token was handed to `match_func`. -/
structure TryLoadResult where
  object : Option Nat
  loginAttempts : List Nat
  warnedMultiple : Bool
  searched : List Nat
deriving Repr, DecidableEq

/-- The matched-set resolution of `ctx_try_load_object` (util_uri.c lines
676-756): the `matched_slots` array, with the fallback to `PKCS11_find_token`
when nothing matched and neither a token filter nor a slot number was given.
`none` models the `goto cleanup` failures ("No matching token was found",
"not found on slot N", "No tokens found"). -/
def resolveMatched (a : LookupArgs) : Option (List PKCS11_SLOT) :=
  let matched0 := matchedSlots a.slots a.slot_nr a.match_tok
  if matched0.isEmpty then
    if a.match_tok.isSome then none
    else if a.slot_nr != -1 then none
    else
      match PKCS11_find_token a.slots with
      | some s => if s.token.isSome then some [s] else none
      | none => none
  else some matched0

/-- The single-slot login-and-search sequence that `ctx_try_load_object`
performs both for a lone matched slot (util_uri.c lines 763-779 and 861) and
for a lone initialized token among several matches (lines 814-828 and 861):
fail on an empty slot, call `ctx_login` only when the token requires login or
login is forced, fail the lookup if that login fails, and otherwise hand the
token to `match_func`. -/
def login_single (a : LookupArgs) (s : PKCS11_SLOT) : TryLoadResult :=
  match s.token with
  | none => ⟨none, [], false, []⟩               -- "Empty slot found"
  | some t =>
    if t.loginRequired || a.force_login then
      if a.loginOk s.id then ⟨a.matchFunc t, [s.id], false, [s.id]⟩
      else ⟨none, [s.id], false, []⟩            -- "Login to token failed"
    else ⟨a.matchFunc t, [], false, [s.id]⟩

/-- The multiple-matched-slots branch (util_uri.c lines 780-859): split into
initialized and uninitialized tokens; a lone initialized token is handled
like the single-slot case; otherwise no login happens at all, the
"Multiple matching slots; will not try to login" warning is emitted when more
than one initialized token remains, and the uninitialized tokens are searched
instead. -/
def login_multi (a : LookupArgs) (matched : List PKCS11_SLOT) : TryLoadResult :=
  match (partitionInit matched).1 with
  | [s] => login_single a s
  | other =>
    ⟨(scanUninit (partitionInit matched).2 a.matchFunc).1, [],
     decide (other.length > 1),
     (scanUninit (partitionInit matched).2 a.matchFunc).2⟩

/-- Function `ctx_try_load_object` (util_uri.c lines 593-897), from the point where
the selector has been parsed: resolve the matched slots, then either perform
the login-path selection or scan the matched slots for a public object. -/
def ctx_try_load_object (a : LookupArgs) (login : Bool) : TryLoadResult :=
  match resolveMatched a with
  | none => ⟨none, [], false, []⟩
  | some matched =>
    if login then
      match matched with
      | [] => ⟨none, [], false, []⟩             -- unreachable: matched ≠ []
      | [s] => login_single a s
      | s1 :: s2 :: rest => login_multi a (s1 :: s2 :: rest)
    else
      ⟨(scanPublic matched a.matchFunc).1, [], false,
       (scanPublic matched a.matchFunc).2⟩

/-- Result of `ctx_load_object`: the object, the `login` flags of the
`ctx_try_load_object` passes performed (in order), and all login attempts
made across them. -/
structure LoadResult where
  object : Option Nat
  passes : List Bool
  loginAttempts : List Nat
deriving Repr, DecidableEq

/-- Function `ctx_load_object` (util_uri.c lines 899-925): without force-login, first
a pass without authentication; a pass with authentication only when that
found nothing.  With force-login, only the authenticated pass runs. -/
def ctx_load_object (a : LookupArgs) : LoadResult :=
  if !a.force_login then
    let r1 := ctx_try_load_object a false
    match r1.object with
    | some o => ⟨some o, [false], r1.loginAttempts⟩
    | none =>
      let r2 := ctx_try_load_object a true
      ⟨r2.object, [false, true], r1.loginAttempts ++ r2.loginAttempts⟩
  else
    let r2 := ctx_try_load_object a true
    ⟨r2.object, [true], r2.loginAttempts⟩

/-! ## Certificate selection (util_uri.c, cert_cmp / match_cert) -/

/-- The two attributes of an `X509` the selection consults: the notAfter
time (as a point on the time line, compared via `ASN1_TIME_diff`) and an
abstraction of the encoded certificate as ordered by `X509_cmp`. -/
structure X509Data where
  notAfter : Int
  enc : Nat
deriving Repr, DecidableEq

/-- Model of `X509_cmp`: the sign of comparing the encodings. -/
def X509_cmp (a b : X509Data) : Int :=
  if a.enc < b.enc then -1 else if a.enc = b.enc then 0 else 1

/-- A certificate as enumerated from the token (`PKCS11_CERT`): id bytes,
optional label, and the parsed `x509` (possibly NULL). -/
structure PKCS11_CERT where
  id : List Nat
  label : Option String
  x509 : Option X509Data
deriving Repr, DecidableEq

/-- The notAfter time of a certificate (0 when no `x509` is attached; only
used under hypotheses that make the `x509` present). -/
def certNotAfter (c : PKCS11_CERT) : Int :=
  match c.x509 with
  | some x => x.notAfter
  | none => 0

/-- Function `cert_cmp` (util_uri.c lines 931-962): of two candidates, prefer one with
an `x509` at all, then the one whose notAfter is later, and on exactly equal
expiry keep `b` unless `X509_cmp` ranks `a` strictly above `b`. -/
def cert_cmp (a b : Option PKCS11_CERT) : Option PKCS11_CERT :=
  match a with
  | none => b
  | some ac =>
    match ac.x509 with
    | none => b
    | some ax =>
      match b with
      | none => a
      | some bc =>
        match bc.x509 with
        | none => a
        | some bx =>
          if bx.notAfter < ax.notAfter then a         -- pday/psec negative
          else if ax.notAfter < bx.notAfter then b    -- pday/psec positive
          else if X509_cmp ax bx < 1 then b else a

/-- The per-certificate selector test of `match_cert` (util_uri.c lines
1015-1030): both id and label must match exactly when both are given, else
whichever one is given. -/
def certMatches (obj_id : List Nat) (obj_label : Option String)
    (k : PKCS11_CERT) : Bool :=
  match obj_label, obj_id with
  | some lbl, _ :: _ =>
    (match k.label with | some kl => kl == lbl | none => false) && k.id == obj_id
  | some lbl, [] =>
    (match k.label with | some kl => kl == lbl | none => false)
  | none, _ :: _ => k.id == obj_id
  | none, [] => false

/-- Function `match_cert` (util_uri.c lines 964-1079), given the certificates
enumerated from the token (the enumeration pre-filter does not affect which
element the scan selects).  With an id or label selector, every match is
folded through `cert_cmp`; without one, the first certificate whose id starts
with a nonzero byte is taken (`k->id && *k->id`), else the first
certificate. -/
def match_cert (certs : List PKCS11_CERT) (obj_id : List Nat)
    (obj_label : Option String) : Option PKCS11_CERT :=
  match certs with
  | [] => none                                  -- cert_count == 0
  | _ =>
    if obj_id ≠ [] ∨ obj_label.isSome then
      certs.foldl
        (fun sel k => if certMatches obj_id obj_label k then cert_cmp sel (some k) else sel)
        none
    else
      match certs.find? (fun k => k.id.headD 0 != 0) with
      | some k => some k
      | none => certs.head?

/-! ## Key selection (util_uri.c, match_key) -/

/-- A key as enumerated from the token (`PKCS11_KEY`). -/
structure PKCS11_KEY where
  id : List Nat
  label : Option String
  isPrivate : Bool
  needLogin : Bool
deriving Repr, DecidableEq

/-- The per-key selector test of `match_key` (util_uri.c lines 1126-1141),
identical in shape to `certMatches`. -/
def keyMatches (obj_id : List Nat) (obj_label : Option String)
    (k : PKCS11_KEY) : Bool :=
  match obj_label, obj_id with
  | some lbl, _ :: _ =>
    (match k.label with | some kl => kl == lbl | none => false) && k.id == obj_id
  | some lbl, [] =>
    (match k.label with | some kl => kl == lbl | none => false)
  | none, _ :: _ => k.id == obj_id
  | none, [] => false

/-- Function `match_key` (util_uri.c lines 1095-1161), given the keys enumerated by
`match_key_int` (public or private according to the caller's flag).  With an
id or label selector, `selected_key` is overwritten by every later match, so
the last match wins; without one, the first key is taken. -/
def match_key (keys : List PKCS11_KEY) (obj_id : List Nat)
    (obj_label : Option String) : Option PKCS11_KEY :=
  match keys with
  | [] => none                                  -- "No key found"
  | _ =>
    if obj_id ≠ [] ∨ obj_label.isSome then
      keys.foldl
        (fun sel k => if keyMatches obj_id obj_label k then some k else sel)
        none
    else keys.head?

/-- The trace property claimed for the PIN buffer: every `freed` event frees
an all-zero buffer and is immediately preceded by the `cleansed` event that
zeroized it; a `freed` with no preceding `cleansed` violates the property. -/
def pinTraceSafe : List PinEvent → Prop
  | [] => True
  | .cleansed n :: .freed content :: rest =>
    content = List.replicate n 0 ∧ pinTraceSafe rest
  | .freed _ :: _ => False
  | _ :: rest => pinTraceSafe rest

/-- A concrete sign-call state: a token-backed key, applicable PSS
parameters (SHA-256, salt code -1, 2048-bit key), a successful `C_SignInit`,
and a `C_Sign` that reports the nonzero `CKR` code 5. -/
def signFailState : SignState where
  pkey_present := true
  rsa_present := true
  key_present := true
  ctx_present := true
  sig_md := some ⟨MDKind.sha256, 32⟩
  mgf1_md := some ⟨MDKind.sha256, 32⟩
  saltlen := some (-1)
  pkeyInfo := some ⟨256, 2048⟩
  tbslen := 32
  sign_initialized := false
  padding := RSA_PKCS1_PSS_PADDING
  always_authenticate := false
  rv_sign_init := 0
  rv_auth := 0
  rv_sign := 5
  sig_null := false
  token_size := 256

/-- A concrete decrypt-call state: a token-backed key, `CKM_RSA_PKCS`
padding, a successful `C_DecryptInit`, and a `C_Decrypt` that reports the
nonzero `CKR` code 7. -/
def decryptFailState : DecryptState where
  pkey_present := true
  rsa_present := true
  key_present := true
  ctx_present := true
  decrypt_initialized := false
  padding := CKM_RSA_PKCS
  oaep_md := none
  mgf1_md := none
  always_authenticate := false
  rv_decrypt_init := 0
  rv_auth := 0
  rv_decrypt := 7
  out_null := false
  outlen := 300
  token_size := 256

/-- A concrete initialized token requiring login. -/
def exTokenA : PKCS11_TOKEN :=
  ⟨"tokA", "acme", "0001", "model1", true, true, false, true, false⟩

/-- A second concrete initialized token requiring login. -/
def exTokenB : PKCS11_TOKEN :=
  ⟨"tokB", "acme", "0002", "model1", true, true, false, true, false⟩

/-- A lookup in which a field-free token filter matches two slots, both with
initialized tokens: the ambiguous multi-slot situation. -/
def exArgsMulti : LookupArgs :=
  ⟨[⟨0, some exTokenA⟩, ⟨1, some exTokenB⟩], -1, some ⟨none, none, none, none⟩,
   false, fun _ => true, fun _ => none⟩

/-- A lookup with no selector at all against a single slot holding a token
whose object is publicly visible (handle 42). -/
def exArgsSingle : LookupArgs :=
  ⟨[⟨0, some exTokenA⟩], -1, none, false, fun _ => true, fun _ => some 42⟩

/-- A context holding a cached three-byte PIN that was explicitly set. -/
def pinCtxEx : PinCtx := ⟨some [1, 2, 3], true, true⟩

/-! # Theorems

First the auxiliary lemmas shared between claims, then one theorem (plus
witness or counterexample) per claim. -/

/-- A successful `hex_to_bin_loop` run validated every character: each one is
either the `':'` separator or a hex digit. -/
lemma hex_to_bin_loop_chars (s : List Char) (left : Nat) (acc : List Nat) :
    ∀ out, hex_to_bin_loop s left acc = some out →
      ∀ c ∈ s, c = ':' ∨ (hexVal c).isSome := by
  induction s, left, acc using hex_to_bin_loop.induct <;>
    intro out h c hc <;>
    simp only [hex_to_bin_loop] at h <;>
    simp_all [List.mem_cons] <;> aesop

/-- Claim C9: `hex_to_bin` on an empty (or NULL) string succeeds with output
length zero; any input containing a character that is neither a hex digit nor
the `':'` separator fails; every failure (including overflowing the supplied
capacity, as in the final concrete instance) stores 0 through `*outlen`. -/
theorem C9_hex_to_bin :
    (∀ cap, hex_to_bin none cap = ⟨true, 0, []⟩) ∧
    (∀ cap, hex_to_bin (some []) cap = ⟨true, 0, []⟩) ∧
    (∀ cap, hex_to_bin (some ['z', 'z']) cap = ⟨false, 0, []⟩) ∧
    (∀ (s : List Char) (cap : Nat), (∃ c ∈ s, c ≠ ':' ∧ hexVal c = none) →
       (hex_to_bin (some s) cap).ret = false) ∧
    (∀ (input : Option (List Char)) (cap : Nat),
       (hex_to_bin input cap).ret = false → (hex_to_bin input cap).outlen = 0) ∧
    hex_to_bin (some ['0', '1', '0', '2']) 1 = ⟨false, 0, []⟩ := by
  refine ⟨fun _ => rfl, fun _ => rfl, ?_, ?_, ?_, by decide⟩
  · intro cap
    have hz : hexVal 'z' = none := by decide
    have hne : ('z' : Char) ≠ ':' := by decide
    simp [hex_to_bin, hex_to_bin_loop, hz, hne]
  · rintro s cap ⟨c, hcs, hcne, hcnone⟩
    cases s with
    | nil => simp at hcs
    | cons a rest =>
      cases h : hex_to_bin_loop (a :: rest) cap [] with
      | none => simp [hex_to_bin, h]
      | some out =>
        exfalso
        rcases hex_to_bin_loop_chars (a :: rest) cap [] out h c hcs with h1 | h1
        · exact hcne h1
        · rw [hcnone] at h1; simp at h1
  · intro input cap h
    match input with
    | none => simp [hex_to_bin] at h
    | some [] => simp [hex_to_bin] at h
    | some (a :: rest) =>
      cases hl : hex_to_bin_loop (a :: rest) cap [] with
      | none => simp [hex_to_bin, hl]
      | some out => simp [hex_to_bin, hl] at h

/-- Witness for C9: concrete instances discharging the hypotheses of the
quantified conjuncts. -/
theorem C9_hex_to_bin_witness :
    (hex_to_bin (some ['a', 'z']) 4).ret = false ∧
    (hex_to_bin (some ['z']) 3).outlen = 0 := by
  obtain ⟨-, -, -, h4, h5, -⟩ := C9_hex_to_bin
  exact ⟨h4 ['a', 'z'] 4 ⟨'z', by decide, by decide, by decide⟩,
    h5 (some ['z']) 3 (h4 ['z'] 3 ⟨'z', by decide, by decide, by decide⟩)⟩

/-- Claim C7 (code bug): a `pin-source` file whose first line ends in a
newline yields a PIN that still contains that newline.  `read_from_file`
keeps everything `BIO_gets` read, including the trailing `'\n'`, while the
spec (and the repository's own `pin_with_trailing_newline.txt` test fixture)
require it stripped.  Both the `file:`-prefixed and the plain-path forms of
`parse_pin_source` are affected. -/
theorem C7_pin_newline_kept :
    (read_from_file (some ['1', '2', '3', '4', '\n']) MAX_PIN_LENGTH).field =
      ['1', '2', '3', '4', '\n'] ∧
    (read_from_file (some ['1', '2', '3', '4', '\n']) MAX_PIN_LENGTH).field_len = 5 ∧
    pinFromFileSpec ['1', '2', '3', '4', '\n'] MAX_PIN_LENGTH = ['1', '2', '3', '4'] ∧
    (read_from_file (some ['1', '2', '3', '4', '\n']) MAX_PIN_LENGTH).field ≠
      pinFromFileSpec ['1', '2', '3', '4', '\n'] MAX_PIN_LENGTH ∧
    (parse_pin_source ['f', 'i', 'l', 'e', ':', 'p']
        (fun path => if path = ['p'] then some ['1', '2', '3', '4', '\n'] else none)
        MAX_PIN_LENGTH).2.1 = ['1', '2', '3', '4', '\n'] ∧
    (parse_pin_source ['p']
        (fun path => if path = ['p'] then some ['1', '2', '3', '4', '\n'] else none)
        MAX_PIN_LENGTH).2.1 = ['1', '2', '3', '4', '\n'] := by
  refine ⟨by decide, by decide, by decide, by decide, ?_, ?_⟩ <;> decide

/-- Claim C5: PSS salt-length translation.  With mappable digests, salt-code
-1 yields the digest size, and salt-code -2 yields the key size in bytes
minus the digest size minus 2, reduced by one more when the key's bit length
minus 1 is a multiple of 8, the whole translation failing when the result is
negative. -/
theorem C5_pss_salt_len :
    ∀ (smd gmd : EVPMD) (pk : EvpPkey),
      pkcs11_md2ckm smd ≠ 0 → pkcs11_md2ckg gmd ≠ 0 →
      (pkcs11_params_pss (some smd) (some gmd) (some (-1)) (some pk) =
        some ⟨pkcs11_md2ckm smd, pkcs11_md2ckg gmd, (smd.size : Int)⟩) ∧
      (pkcs11_params_pss (some smd) (some gmd) (some (-2)) (some pk) =
        if ((pk.bits : Int) - 1) % 8 = 0 then
          (if (pk.size : Int) - (smd.size : Int) - 2 - 1 < 0 then none
           else some ⟨pkcs11_md2ckm smd, pkcs11_md2ckg gmd,
                      (pk.size : Int) - (smd.size : Int) - 2 - 1⟩)
        else
          (if (pk.size : Int) - (smd.size : Int) - 2 < 0 then none
           else some ⟨pkcs11_md2ckm smd, pkcs11_md2ckg gmd,
                      (pk.size : Int) - (smd.size : Int) - 2⟩)) := by
  intro smd gmd pk hm hg
  constructor
  · norm_num [pkcs11_params_pss, hm, hg]
  · by_cases hb : ((pk.bits : Int) - 1) % 8 = 0 <;>
      by_cases hs1 : (pk.size : Int) - (smd.size : Int) - 2 - 1 < 0 <;>
      by_cases hs0 : (pk.size : Int) - (smd.size : Int) - 2 < 0 <;>
      norm_num [pkcs11_params_pss, hm, hg, hb, hs1, hs0]

/-- Witness for C5: SHA-256 with a 2048-bit (256-byte) key.  Salt code -1
gives salt 32; salt code -2 gives 256 - 32 - 2 = 222 (2047 is not a multiple
of 8); with an absurdly small 4-byte key the -2 computation underflows and
the translation fails. -/
theorem C5_pss_salt_len_witness :
    pkcs11_params_pss (some ⟨MDKind.sha256, 32⟩) (some ⟨MDKind.sha256, 32⟩)
      (some (-1)) (some ⟨256, 2048⟩) = some ⟨592, 2, 32⟩ ∧
    pkcs11_params_pss (some ⟨MDKind.sha256, 32⟩) (some ⟨MDKind.sha256, 32⟩)
      (some (-2)) (some ⟨256, 2048⟩) = some ⟨592, 2, 222⟩ ∧
    pkcs11_params_pss (some ⟨MDKind.sha256, 32⟩) (some ⟨MDKind.sha256, 32⟩)
      (some (-2)) (some ⟨4, 32⟩) = none := by
  have h1 := C5_pss_salt_len ⟨MDKind.sha256, 32⟩ ⟨MDKind.sha256, 32⟩ ⟨256, 2048⟩
    (by decide) (by decide)
  have h2 := C5_pss_salt_len ⟨MDKind.sha256, 32⟩ ⟨MDKind.sha256, 32⟩ ⟨4, 32⟩
    (by decide) (by decide)
  refine ⟨by simpa using h1.1, ?_, ?_⟩
  · have := h1.2
    norm_num at this
    simpa using this
  · have := h2.2
    norm_num at this
    simpa using this

/-- On the sign path, once `C_Sign` has actually been issued the try
function's return value is decided by the token's `C_Sign` status alone. -/
lemma try_sign_primitive_ret (s : SignState) :
    (pkcs11_try_pkey_rsa_sign s).primitive_called = true →
    ((pkcs11_try_pkey_rsa_sign s).ret = if s.rv_sign = 0 then 1 else -1) := by
  unfold pkcs11_try_pkey_rsa_sign
  repeat' split
  all_goals intro h
  all_goals try simp_all
  all_goals repeat' split
  all_goals simp_all

/-- The sign wrapper delegates to the original software implementation
exactly when the try function returned a negative value. -/
lemma sign_delegates_iff (s : SignState) (orig : Int) :
    (pkcs11_pkey_rsa_sign s orig).delegated = true ↔
      (pkcs11_try_pkey_rsa_sign s).ret < 0 := by
  unfold pkcs11_pkey_rsa_sign
  by_cases h : (pkcs11_try_pkey_rsa_sign s).ret < 0 <;> simp [h]

/-- Decrypt analogue of `try_sign_primitive_ret`, restricted to failing
`C_Decrypt` outcomes. -/
lemma try_decrypt_primitive_ret (d : DecryptState) :
    (pkcs11_try_pkey_rsa_decrypt d).primitive_called = true → d.rv_decrypt ≠ 0 →
    (pkcs11_try_pkey_rsa_decrypt d).ret = -1 := by
  unfold pkcs11_try_pkey_rsa_decrypt
  repeat' split
  all_goals intro h hrv
  all_goals try simp_all
  all_goals repeat' split
  all_goals simp_all

/-- Decrypt analogue of `sign_delegates_iff`. -/
lemma decrypt_delegates_iff (d : DecryptState) (orig : Int) :
    (pkcs11_pkey_rsa_decrypt d orig).delegated = true ↔
      (pkcs11_try_pkey_rsa_decrypt d).ret < 0 := by
  unfold pkcs11_pkey_rsa_decrypt
  by_cases h : (pkcs11_try_pkey_rsa_decrypt d).ret < 0 <;> simp [h]

/-- Claim C1 counterexample: a concrete state in which the token primitive
`C_Sign` was issued and failed, yet the wrapper delegates to the original
software implementation — which here succeeds, so the token failure is
silently absorbed instead of being surfaced. -/
theorem C1_counterexample :
    (pkcs11_try_pkey_rsa_sign signFailState).primitive_called = true ∧
    (pkcs11_try_pkey_rsa_sign signFailState).ret = -1 ∧
    (pkcs11_pkey_rsa_sign signFailState 1).delegated = true ∧
    (pkcs11_pkey_rsa_sign signFailState 1).ret = 1 := by decide

/-- Claim C1 as amended: failures detected before the token primitive call
and failures the token reports once `C_Sign`/`C_Decrypt` has been issued are
treated alike — the try function returns the single code -1, and the wrapper
then always retries the operation against the original software
implementation. -/
theorem C1_fallback_on_all_failures :
    ∀ (s : SignState) (d : DecryptState) (orig : Int),
      ((pkcs11_try_pkey_rsa_sign s).primitive_called = true → s.rv_sign ≠ 0 →
        (pkcs11_try_pkey_rsa_sign s).ret = -1 ∧
        pkcs11_pkey_rsa_sign s orig = ⟨orig, true, true⟩) ∧
      ((pkcs11_pkey_rsa_sign s orig).delegated = true ↔
        (pkcs11_try_pkey_rsa_sign s).ret < 0) ∧
      ((pkcs11_try_pkey_rsa_decrypt d).primitive_called = true → d.rv_decrypt ≠ 0 →
        (pkcs11_try_pkey_rsa_decrypt d).ret = -1 ∧
        pkcs11_pkey_rsa_decrypt d orig = ⟨orig, true, true⟩) ∧
      ((pkcs11_pkey_rsa_decrypt d orig).delegated = true ↔
        (pkcs11_try_pkey_rsa_decrypt d).ret < 0) := by
  intro s d orig
  refine ⟨fun hp hrv => ?_, sign_delegates_iff s orig,
          fun hp hrv => ?_, decrypt_delegates_iff d orig⟩
  · have hret : (pkcs11_try_pkey_rsa_sign s).ret = -1 := by
      rw [try_sign_primitive_ret s hp, if_neg hrv]
    refine ⟨hret, ?_⟩
    unfold pkcs11_pkey_rsa_sign
    simp [hret, hp]
  · have hret := try_decrypt_primitive_ret d hp hrv
    refine ⟨hret, ?_⟩
    unfold pkcs11_pkey_rsa_decrypt
    simp [hret, hp]

/-- Witness for C1's amended theorem at the concrete failing states. -/
theorem C1_fallback_witness :
    (pkcs11_try_pkey_rsa_sign signFailState).ret = -1 ∧
    pkcs11_pkey_rsa_sign signFailState 0 = ⟨0, true, true⟩ ∧
    (pkcs11_try_pkey_rsa_decrypt decryptFailState).ret = -1 ∧
    pkcs11_pkey_rsa_decrypt decryptFailState 0 = ⟨0, true, true⟩ := by
  obtain ⟨h1, -, h3, -⟩ := C1_fallback_on_all_failures signFailState decryptFailState 0
  obtain ⟨a1, a2⟩ := h1 (by decide) (by decide)
  obtain ⟨a3, a4⟩ := h3 (by decide) (by decide)
  exact ⟨a1, a2, a3, a4⟩

/-- Folding a filter-guarded update equals folding the update over the
filtered list. -/
lemma foldl_filter_cond {α β : Type} (p : α → Bool) (g : β → α → β) :
    ∀ (l : List α) (init : β),
      l.foldl (fun sel k => if p k then g sel k else sel) init =
        (l.filter p).foldl g init := by
  intro l
  induction l with
  | nil => intro init; rfl
  | cons c rest ih =>
    intro init
    by_cases h : p c = true
    · rw [List.filter_cons_of_pos h, List.foldl_cons, List.foldl_cons, if_pos h, ih]
    · rw [List.filter_cons_of_neg h, List.foldl_cons, if_neg h, ih]

/-- Folding "overwrite on match" returns the last matching element, or the
start value when nothing matches. -/
lemma foldl_override_getLast {α : Type} (p : α → Bool) :
    ∀ (l : List α) (init : Option α),
      l.foldl (fun sel k => if p k then some k else sel) init =
        (match (l.filter p).getLast? with
         | some x => some x
         | none => init) := by
  intro l
  induction l with
  | nil => intro init; rfl
  | cons c rest ih =>
    intro init
    rw [List.foldl_cons, ih]
    by_cases h : p c = true
    · rw [List.filter_cons_of_pos h]
      cases hr : (rest.filter p).getLast? with
      | none =>
        have he : rest.filter p = [] := List.getLast?_eq_none_iff.mp hr
        simp [he, h]
      | some x =>
        cases hl : rest.filter p with
        | nil => rw [hl] at hr; simp at hr
        | cons y ys =>
          rw [hl] at hr
          simp only [hl, hr, List.getLast?_cons_cons]
    · rw [List.filter_cons_of_neg h]
      simp [h]

/-- Claim C4: with an id or label selector the key selector returns the last
matching key in enumeration order (later identically-matching entries
override earlier ones); with neither id nor label it returns the first
enumerated key. -/
theorem C4_key_last_match :
    ∀ (keys : List PKCS11_KEY) (obj_id : List Nat) (obj_label : Option String),
      ((obj_id ≠ [] ∨ obj_label.isSome) →
        match_key keys obj_id obj_label =
          (keys.filter (keyMatches obj_id obj_label)).getLast?) ∧
      (obj_id = [] → obj_label = none →
        match_key keys obj_id obj_label = keys.head?) := by
  intro keys obj_id obj_label
  constructor
  · intro hsel
    cases keys with
    | nil => simp [match_key]
    | cons k ks =>
      rw [show match_key (k :: ks) obj_id obj_label =
            (if obj_id ≠ [] ∨ obj_label.isSome then
              (k :: ks).foldl
                (fun sel k => if keyMatches obj_id obj_label k then some k else sel)
                none
            else (k :: ks).head?) from rfl]
      rw [if_pos hsel, foldl_override_getLast]
      cases ((k :: ks).filter (keyMatches obj_id obj_label)).getLast? <;> rfl
  · intro h1 h2
    cases keys with
    | nil => simp [match_key]
    | cons k ks => simp [match_key, h1, h2]

/-- Witness for C4: among three keys of which the first and third match id
`01`, the third (last) is returned; with no selector the first of two keys is
returned. -/
theorem C4_key_last_match_witness :
    match_key [⟨[1], none, true, false⟩, ⟨[2], none, true, false⟩,
        ⟨[1], some "x", true, true⟩] [1] none =
      some ⟨[1], some "x", true, true⟩ ∧
    match_key [⟨[2], none, true, false⟩, ⟨[1], none, true, false⟩] [] none =
      some ⟨[2], none, true, false⟩ := by
  have h := C4_key_last_match [⟨[1], none, true, false⟩, ⟨[2], none, true, false⟩,
    ⟨[1], some "x", true, true⟩] [1] none
  have h2 := C4_key_last_match [⟨[2], none, true, false⟩,
    ⟨[1], none, true, false⟩] [] none
  exact ⟨by rw [h.1 (by simp)]; decide, by rw [h2.2 rfl rfl]; decide⟩

/-- Applying `cert_cmp` to two certificates that both carry an `x509` returns one of
them, never with an earlier notAfter than either. -/
lemma cert_cmp_facts (a b : PKCS11_CERT) (ax bx : X509Data)
    (hax : a.x509 = some ax) (hbx : b.x509 = some bx) :
    ∃ r, cert_cmp (some a) (some b) = some r ∧ (r = a ∨ r = b) ∧
      certNotAfter a ≤ certNotAfter r ∧ certNotAfter b ≤ certNotAfter r := by
  have hca : certNotAfter a = ax.notAfter := by simp [certNotAfter, hax]
  have hcb : certNotAfter b = bx.notAfter := by simp [certNotAfter, hbx]
  by_cases h1 : bx.notAfter < ax.notAfter
  · exact ⟨a, by simp [cert_cmp, hax, hbx, h1], Or.inl rfl, le_refl _,
      by rw [hca, hcb]; omega⟩
  · by_cases h2 : ax.notAfter < bx.notAfter
    · exact ⟨b, by simp [cert_cmp, hax, hbx, h1, h2], Or.inr rfl,
        by rw [hca, hcb]; omega, le_refl _⟩
    · by_cases h3 : X509_cmp ax bx < 1
      · exact ⟨b, by simp [cert_cmp, hax, hbx, h1, h2, h3], Or.inr rfl,
          by rw [hca, hcb]; omega, le_refl _⟩
      · exact ⟨a, by simp [cert_cmp, hax, hbx, h1, h2, h3], Or.inl rfl, le_refl _,
          by rw [hca, hcb]; omega⟩

/-- Folding `cert_cmp` over certificates that all carry an `x509` yields an
element of the candidates whose notAfter is maximal among them. -/
lemma cert_fold_max :
    ∀ (l : List PKCS11_CERT) (a : PKCS11_CERT),
      (∀ k ∈ l, k.x509.isSome) → a.x509.isSome →
      ∃ c, l.foldl (fun sel k => cert_cmp sel (some k)) (some a) = some c ∧
        (c = a ∨ c ∈ l) ∧ c.x509.isSome ∧ certNotAfter a ≤ certNotAfter c ∧
        ∀ k ∈ l, certNotAfter k ≤ certNotAfter c := by
  intro l
  induction l with
  | nil => intro a _ ha; exact ⟨a, rfl, Or.inl rfl, ha, le_refl _, by simp⟩
  | cons b rest ih =>
    intro a hl ha
    have hb : b.x509.isSome := hl b (by simp)
    obtain ⟨ax, hax⟩ := Option.isSome_iff_exists.mp ha
    obtain ⟨bx, hbx⟩ := Option.isSome_iff_exists.mp hb
    obtain ⟨r, hr, hror, hra, hrb⟩ := cert_cmp_facts a b ax bx hax hbx
    have hrx : r.x509.isSome := by
      rcases hror with rfl | rfl <;> simp [hax, hbx]
    obtain ⟨c, hc, hcor, hcx, hcr, hck⟩ :=
      ih r (fun k hk => hl k (by simp [hk])) hrx
    refine ⟨c, ?_, ?_, hcx, le_trans hra hcr, ?_⟩
    · rw [List.foldl_cons, hr]; exact hc
    · rcases hcor with rfl | hcmem
      · rcases hror with rfl | rfl
        · exact Or.inl rfl
        · exact Or.inr (by simp)
      · exact Or.inr (by simp [hcmem])
    · intro k hk
      rcases List.mem_cons.mp hk with rfl | hk'
      · exact le_trans hrb hcr
      · exact hck k hk'

/-- Claim C3: with an id or label selector, the certificate selector returns
a matching certificate whose notAfter is maximal among the matches (longest
remaining validity); and on exactly equal notAfter, `cert_cmp` decides by the
deterministic `X509_cmp` total order over the encoded certificates, so the
selection is a function of the enumeration alone. -/
theorem C3_cert_longest_validity :
    (∀ (certs : List PKCS11_CERT) (obj_id : List Nat) (obj_label : Option String),
      (obj_id ≠ [] ∨ obj_label.isSome) →
      (∀ k ∈ certs.filter (certMatches obj_id obj_label), k.x509.isSome) →
      certs.filter (certMatches obj_id obj_label) ≠ [] →
      ∃ c, match_cert certs obj_id obj_label = some c ∧
        c ∈ certs.filter (certMatches obj_id obj_label) ∧
        ∀ k ∈ certs.filter (certMatches obj_id obj_label),
          certNotAfter k ≤ certNotAfter c) ∧
    (∀ (a b : PKCS11_CERT) (ax bx : X509Data),
      a.x509 = some ax → b.x509 = some bx → ax.notAfter = bx.notAfter →
      cert_cmp (some a) (some b) =
        (if X509_cmp ax bx < 1 then some b else some a)) := by
  constructor
  · intro certs obj_id obj_label hsel hx hne
    cases certs with
    | nil => simp at hne
    | cons k0 ks =>
      have hcert : match_cert (k0 :: ks) obj_id obj_label =
          (k0 :: ks).foldl
            (fun sel k => if certMatches obj_id obj_label k then cert_cmp sel (some k) else sel)
            none := by
        rw [show match_cert (k0 :: ks) obj_id obj_label =
              (if obj_id ≠ [] ∨ obj_label.isSome then
                (k0 :: ks).foldl
                  (fun sel k =>
                    if certMatches obj_id obj_label k then cert_cmp sel (some k) else sel)
                  none
              else
                match (k0 :: ks).find? (fun k => k.id.headD 0 != 0) with
                | some k => some k
                | none => (k0 :: ks).head?) from rfl]
        rw [if_pos hsel]
      rw [hcert, foldl_filter_cond]
      cases hfil : (k0 :: ks).filter (certMatches obj_id obj_label) with
      | nil => exact absurd hfil hne
      | cons m ms =>
        rw [hfil] at hx
        have hm : m.x509.isSome := hx m (by simp)
        obtain ⟨c, hc, hcor, hcx, hcm, hck⟩ :=
          cert_fold_max ms m (fun k hk => hx k (by simp [hk])) hm
        refine ⟨c, ?_, ?_, ?_⟩
        · rw [List.foldl_cons]
          show List.foldl _ (cert_cmp none (some m)) ms = some c
          exact hc
        · rcases hcor with rfl | hcmem
          · simp
          · simp [hcmem]
        · intro k hk
          rcases List.mem_cons.mp hk with rfl | hk'
          · exact hcm
          · exact hck k hk'
  · intro a b ax bx hax hbx heq
    simp [cert_cmp, hax, hbx, heq]

/-- Witness for C3: of two certificates matching id `01`, the one expiring
later (time 200) is selected; and with equal expiry the `X509_cmp` order
picks the certificate with the larger encoding. -/
theorem C3_cert_longest_validity_witness :
    match_cert [⟨[1], none, some ⟨100, 5⟩⟩, ⟨[1], none, some ⟨200, 3⟩⟩] [1] none =
      some ⟨[1], none, some ⟨200, 3⟩⟩ ∧
    cert_cmp (some ⟨[1], none, some ⟨100, 3⟩⟩) (some ⟨[1], none, some ⟨100, 7⟩⟩) =
      some ⟨[1], none, some ⟨100, 7⟩⟩ := by
  obtain ⟨h1, h2⟩ := C3_cert_longest_validity
  constructor
  · obtain ⟨c, hc, -, -⟩ := h1 [⟨[1], none, some ⟨100, 5⟩⟩, ⟨[1], none, some ⟨200, 3⟩⟩]
      [1] none (Or.inl (by decide)) (by decide) (by decide)
    have hval : match_cert [⟨[1], none, some ⟨100, 5⟩⟩, ⟨[1], none, some ⟨200, 3⟩⟩]
        [1] none = some ⟨[1], none, some ⟨200, 3⟩⟩ := by decide
    exact hval
  · have := h2 ⟨[1], none, some ⟨100, 3⟩⟩ ⟨[1], none, some ⟨100, 7⟩⟩
      ⟨100, 3⟩ ⟨100, 7⟩ rfl rfl rfl
    rw [this]; decide

lemma puaRec_ok_facts :
    ∀ (attr : List Char) (room : Nat) (out : List Nat) (rem : List Char),
      puaRec attr room = PuaRes.ok out rem →
      out.length ≤ room ∧ (rem ≠ [] → out.length = room) ∧
        out.length ≤ attr.length := by
  intro attr room
  induction attr, room using puaRec.induct with
  | case1 room =>
    intro out rem h
    simp only [puaRec] at h
    cases h
    simp
  | case2 c rest =>
    intro out rem h
    simp only [puaRec] at h
    cases h
    simp
  | case3 room d e rest2 r hret a1 a2 hx ih =>
    intro out rem h
    have hr : (hex_to_bin (some [d, e]) 1).ret = true := hret
    simp only [puaRec, hr, hx, if_true, ite_true, if_pos rfl] at h
    obtain ⟨rfl, rfl⟩ := h
    obtain ⟨i1, i2, i3⟩ := ih a1 a2 hx
    refine ⟨by simp; omega, fun hne => by simp [i2 hne], by simp; omega⟩
  | case4 room d e rest2 r hret hx =>
    intro out rem h
    have hr : (hex_to_bin (some [d, e]) 1).ret = true := hret
    simp [puaRec, hr, hx] at h
  | case5 room d e rest2 r hret =>
    intro out rem h
    have hr : ¬(hex_to_bin (some [d, e]) 1).ret = true := hret
    simp [puaRec, hr] at h
  | case6 room rest hshape =>
    intro out rem h
    rw [puaRec.eq_4 _ _ _ hshape, if_pos rfl] at h
    exact PuaRes.noConfusion h
  | case7 c rest room hc a1 a2 hx ih =>
    intro out rem h
    have hstep : puaRec (c :: rest) (room + 1) = PuaRes.ok (c.toNat :: a1) a2 := by
      rcases rest with - | ⟨d, rest1⟩
      · rw [puaRec.eq_4 _ _ _ (by intro d e r2 hh; simp at hh), if_neg hc, hx]
      · rcases rest1 with - | ⟨e, rest2⟩
        · rw [puaRec.eq_4 _ _ _ (by intro d' e' r2 hh; simp at hh), if_neg hc, hx]
        · rw [puaRec.eq_3, if_neg hc, hx]
    rw [hstep] at h
    cases h
    obtain ⟨i1, i2, i3⟩ := ih a1 a2 hx
    refine ⟨by simp; omega, fun hne => by simp [i2 hne], by simp; omega⟩
  | case8 c rest room hc hx =>
    intro out rem h
    rcases rest with - | ⟨d, rest1⟩
    · rw [puaRec.eq_4 _ _ _ (by intro d e r2 hh; simp at hh), if_neg hc, hx] at h
      simp at h
    · rcases rest1 with - | ⟨e, rest2⟩
      · rw [puaRec.eq_4 _ _ _ (by intro d' e' r2 hh; simp at hh), if_neg hc, hx] at h
        simp at h
      · rw [puaRec.eq_3, if_neg hc, hx] at h
        simp at h

/-- Output capacity beyond the produced bytes is irrelevant: a run that
consumed all of its input succeeds identically at any room that is at least
the output length. -/
lemma puaRec_mono :
    ∀ (attr : List Char) (room : Nat) (out : List Nat),
      puaRec attr room = PuaRes.ok out [] →
      ∀ room', out.length ≤ room' → puaRec attr room' = PuaRes.ok out [] := by
  intro attr room
  induction attr, room using puaRec.induct with
  | case1 room =>
    intro out h room' hle
    simp only [puaRec] at h
    cases h
    simp [puaRec]
  | case2 c rest =>
    intro out h room' hle
    simp only [puaRec] at h
    simp at h
  | case3 room d e rest2 r hret a1 a2 hx ih =>
    intro out h room' hle
    have hr : (hex_to_bin (some [d, e]) 1).ret = true := hret
    simp only [puaRec, hr, hx, if_true, ite_true, if_pos rfl] at h
    obtain ⟨⟨rfl, rfl⟩, -⟩ : ((hex_to_bin (some [d, e]) 1).out.headD 0 :: a1 = out ∧
        a2 = []) ∧ True := by
      cases h
      exact ⟨⟨rfl, rfl⟩, trivial⟩
    cases room' with
    | zero => simp at hle
    | succ q =>
      have hrec := ih a1 hx q (by simp at hle; omega)
      rw [puaRec.eq_3, if_pos rfl, if_pos hr, hrec]
  | case4 room d e rest2 r hret hx =>
    intro out h room' hle
    have hr : (hex_to_bin (some [d, e]) 1).ret = true := hret
    simp [puaRec, hr, hx] at h
  | case5 room d e rest2 r hret =>
    intro out h room' hle
    have hr : ¬(hex_to_bin (some [d, e]) 1).ret = true := hret
    simp [puaRec, hr] at h
  | case6 room rest hshape =>
    intro out h room' hle
    rw [puaRec.eq_4 _ _ _ hshape, if_pos rfl] at h
    exact PuaRes.noConfusion h
  | case7 c rest room hc a1 a2 hx ih =>
    intro out h room' hle
    have hstep : puaRec (c :: rest) (room + 1) = PuaRes.ok (c.toNat :: a1) a2 := by
      rcases rest with - | ⟨d, rest1⟩
      · rw [puaRec.eq_4 _ _ _ (by intro d e r2 hh; simp at hh), if_neg hc, hx]
      · rcases rest1 with - | ⟨e, rest2⟩
        · rw [puaRec.eq_4 _ _ _ (by intro d' e' r2 hh; simp at hh), if_neg hc, hx]
        · rw [puaRec.eq_3, if_neg hc, hx]
    rw [hstep] at h
    cases h
    cases room' with
    | zero => simp at hle
    | succ q =>
      have hrec := ih a1 hx q (by simp at hle; omega)
      rcases rest with - | ⟨d, rest1⟩
      · rw [puaRec.eq_4 _ _ _ (by intro d e r2 hh; simp at hh), if_neg hc, hrec]
      · rcases rest1 with - | ⟨e, rest2⟩
        · rw [puaRec.eq_4 _ _ _ (by intro d' e' r2 hh; simp at hh), if_neg hc, hrec]
        · rw [puaRec.eq_3, if_neg hc, hrec]
  | case8 c rest room hc hx =>
    intro out h room' hle
    rcases rest with - | ⟨d, rest1⟩
    · rw [puaRec.eq_4 _ _ _ (by intro d e r2 hh; simp at hh), if_neg hc, hx] at h
      simp at h
    · rcases rest1 with - | ⟨e, rest2⟩
      · rw [puaRec.eq_4 _ _ _ (by intro d' e' r2 hh; simp at hh), if_neg hc, hx] at h
        simp at h
      · rw [puaRec.eq_3, if_neg hc, hx] at h
        simp at h

/-- Function `parse_uri_attr_len` succeeds with `out` exactly when the loop consumed
all of its input producing `out`. -/
lemma parse_uri_attr_len_some_iff (attr : List Char) (max : Nat) (out : List Nat) :
    parse_uri_attr_len attr max = some out ↔ puaRec attr max = PuaRes.ok out [] := by
  cases h : puaRec attr max with
  | fail => simp [parse_uri_attr_len, h]
  | ok o rem =>
    rcases eq_or_ne rem [] with rfl | hrem
    · simp [parse_uri_attr_len, h]
    · have hlen := (puaRec_ok_facts attr max o rem h).2.1 hrem
      simp [parse_uri_attr_len, h, hrem, hlen]

/-- Claim C8: the percent decoder succeeds exactly when the whole input can
be decoded within the given output capacity, in which case the produced
bytes equal the capacity-independent decode; a truncated escape, a non-hex
escape, or leftover input once the output buffer is full each make it fail
rather than truncate. -/
theorem C8_percent_decode :
    (∀ (attr : List Char) (max : Nat) (out : List Nat),
      parse_uri_attr_len attr max = some out ↔
        (parse_uri_attr_len attr attr.length = some out ∧ out.length ≤ max)) ∧
    (∀ max, parse_uri_attr_len ['%'] max = none) ∧
    (∀ max, parse_uri_attr_len ['%', 'z', 'z'] max = none) ∧
    parse_uri_attr_len ['a', 'b'] 1 = none := by
  refine ⟨?_, ?_, ?_, by decide⟩
  · intro attr max out
    constructor
    · intro h
      have hp := (parse_uri_attr_len_some_iff attr max out).mp h
      have hf := puaRec_ok_facts attr max out [] hp
      exact ⟨(parse_uri_attr_len_some_iff attr attr.length out).mpr
          (puaRec_mono attr max out hp attr.length hf.2.2), hf.1⟩
    · rintro ⟨h1, h2⟩
      have hp := (parse_uri_attr_len_some_iff attr attr.length out).mp h1
      exact (parse_uri_attr_len_some_iff attr max out).mpr
        (puaRec_mono attr attr.length out hp max h2)
  · intro max
    cases max with
    | zero => decide
    | succ n =>
      have hfail : puaRec ['%'] (n + 1) = PuaRes.fail := by
        rw [puaRec.eq_4 _ _ _ (by intro d e r2 hh; simp at hh), if_pos rfl]
      unfold parse_uri_attr_len
      rw [hfail]
  · intro max
    cases max with
    | zero => decide
    | succ n =>
      have hfail : puaRec ['%', 'z', 'z'] (n + 1) = PuaRes.fail := by
        rw [puaRec.eq_3, if_pos rfl, if_neg (by decide)]
      unfold parse_uri_attr_len
      rw [hfail]

/-- Witness for C8: the string `a%41` decodes to the two bytes `61 41` with
capacity 2, through the equivalence of the main theorem. -/
theorem C8_percent_decode_witness :
    parse_uri_attr_len ['a', '%', '4', '1'] 2 = some ['a'.toNat, 65] := by
  exact (C8_percent_decode.1 ['a', '%', '4', '1'] 2 ['a'.toNat, 65]).mpr
    ⟨by decide, by decide⟩

/-- Function `login_single` invokes `ctx_login` either not at all or exactly once, on
the given slot. -/
lemma login_single_attempts (a : LookupArgs) (s : PKCS11_SLOT) :
    (login_single a s).loginAttempts = [] ∨
      (login_single a s).loginAttempts = [s.id] := by
  unfold login_single
  cases ht : s.token with
  | none => simp
  | some t =>
    by_cases hreq : (t.loginRequired || a.force_login) = true
    · by_cases hok : a.loginOk s.id = true <;> simp [hreq, hok]
    · simp [hreq]

/-- When the token requires login (or login is forced), `login_single` does
invoke `ctx_login` on that slot. -/
lemma login_single_attempts_required (a : LookupArgs) (s : PKCS11_SLOT)
    (t : PKCS11_TOKEN) (ht : s.token = some t)
    (hreq : (t.loginRequired || a.force_login) = true) :
    (login_single a s).loginAttempts = [s.id] := by
  unfold login_single
  rw [ht]
  simp only [hreq, if_true]
  split <;> rfl

/-- With a nonempty matched set, `resolveMatched` is exactly that set. -/
lemma resolveMatched_nonempty (a : LookupArgs)
    (h : matchedSlots a.slots a.slot_nr a.match_tok ≠ []) :
    resolveMatched a = some (matchedSlots a.slots a.slot_nr a.match_tok) := by
  unfold resolveMatched
  simp [List.isEmpty_eq_false.mpr h]

/-- With two or more initialized tokens among the matched slots,
`login_multi` performs no login, warns, and searches the uninitialized
tokens. -/
lemma login_multi_ambiguous (a : LookupArgs) (matched : List PKCS11_SLOT)
    (h2 : 2 ≤ (partitionInit matched).1.length) :
    login_multi a matched =
      ⟨(scanUninit (partitionInit matched).2 a.matchFunc).1, [], true,
       (scanUninit (partitionInit matched).2 a.matchFunc).2⟩ := by
  unfold login_multi
  cases hp : (partitionInit matched).1 with
  | nil => rw [hp] at h2; simp at h2
  | cons x xs =>
    cases xs with
    | nil => rw [hp] at h2; simp at h2
    | cons y ys => simp

/-- With exactly one initialized token, `login_multi` behaves like the
single-slot sequence on that slot. -/
lemma login_multi_single (a : LookupArgs) (matched : List PKCS11_SLOT)
    (s : PKCS11_SLOT) (hp : (partitionInit matched).1 = [s]) :
    login_multi a matched = login_single a s := by
  unfold login_multi
  rw [hp]

/-- Function `login_multi` invokes `ctx_login` on at most one slot. -/
lemma login_multi_attempts (a : LookupArgs) (matched : List PKCS11_SLOT) :
    (login_multi a matched).loginAttempts = [] ∨
      ∃ i, (login_multi a matched).loginAttempts = [i] := by
  cases hp : (partitionInit matched).1 with
  | nil =>
    unfold login_multi
    rw [hp]
    simp
  | cons x xs =>
    cases xs with
    | nil =>
      rw [login_multi_single a matched x hp]
      exact (login_single_attempts a x).imp id fun h => ⟨x.id, h⟩
    | cons y ys =>
      unfold login_multi
      rw [hp]
      simp

/-- Function `ctx_try_load_object` invokes `ctx_login` on at most one slot, on any
input. -/
lemma ctx_try_attempts (a : LookupArgs) (login : Bool) :
    (ctx_try_load_object a login).loginAttempts = [] ∨
      ∃ i, (ctx_try_load_object a login).loginAttempts = [i] := by
  unfold ctx_try_load_object
  cases hr : resolveMatched a with
  | none => simp
  | some matched =>
    cases login with
    | false => simp
    | true =>
      cases matched with
      | nil => simp
      | cons s1 rest =>
        cases rest with
        | nil => simpa using (login_single_attempts a s1).imp id fun h => ⟨s1.id, h⟩
        | cons s2 rest2 => simpa using login_multi_attempts a (s1 :: s2 :: rest2)

/-- Claim C2: for a lookup with login requested, `ctx_login` is invoked on at
most one slot.  With exactly one matched slot any login goes to that slot
(and does happen when the token requires login or login is forced); with
several matched slots and two or more initialized tokens, no login happens,
the candidate-listing warning is emitted, and the uninitialized tokens are
searched for the object instead; with several matched slots whose initialized
subset collapses to one, login is attempted on that slot only. -/
theorem C2_login_at_most_one_slot :
    ∀ (a : LookupArgs),
      ((ctx_try_load_object a true).loginAttempts.length ≤ 1) ∧
      (∀ s, matchedSlots a.slots a.slot_nr a.match_tok = [s] →
        (ctx_try_load_object a true).loginAttempts = [] ∨
          (ctx_try_load_object a true).loginAttempts = [s.id]) ∧
      (∀ s t, matchedSlots a.slots a.slot_nr a.match_tok = [s] →
        s.token = some t → (t.loginRequired || a.force_login) = true →
        (ctx_try_load_object a true).loginAttempts = [s.id]) ∧
      (2 ≤ (matchedSlots a.slots a.slot_nr a.match_tok).length →
        2 ≤ (partitionInit (matchedSlots a.slots a.slot_nr a.match_tok)).1.length →
        (ctx_try_load_object a true).loginAttempts = [] ∧
        (ctx_try_load_object a true).warnedMultiple = true ∧
        (ctx_try_load_object a true).object =
          (scanUninit (partitionInit (matchedSlots a.slots a.slot_nr a.match_tok)).2
            a.matchFunc).1 ∧
        (ctx_try_load_object a true).searched =
          (scanUninit (partitionInit (matchedSlots a.slots a.slot_nr a.match_tok)).2
            a.matchFunc).2) ∧
      (∀ s t, 2 ≤ (matchedSlots a.slots a.slot_nr a.match_tok).length →
        (partitionInit (matchedSlots a.slots a.slot_nr a.match_tok)).1 = [s] →
        s.token = some t → (t.loginRequired || a.force_login) = true →
        (ctx_try_load_object a true).loginAttempts = [s.id]) := by
  intro a
  refine ⟨?_, ?_, ?_, ?_, ?_⟩
  · rcases ctx_try_attempts a true with h | ⟨i, h⟩ <;> simp [h]
  · intro s hm
    have hne : matchedSlots a.slots a.slot_nr a.match_tok ≠ [] := by
      rw [hm]; simp
    have hr : resolveMatched a = some [s] := by
      rw [resolveMatched_nonempty a hne, hm]
    unfold ctx_try_load_object
    rw [hr]
    exact login_single_attempts a s
  · intro s t hm ht hreq
    have hne : matchedSlots a.slots a.slot_nr a.match_tok ≠ [] := by
      rw [hm]; simp
    have hr : resolveMatched a = some [s] := by
      rw [resolveMatched_nonempty a hne, hm]
    unfold ctx_try_load_object
    rw [hr]
    exact login_single_attempts_required a s t ht hreq
  · intro hlen hinit
    have hne : matchedSlots a.slots a.slot_nr a.match_tok ≠ [] := by
      intro hh; rw [hh] at hlen; simp at hlen
    have hr : resolveMatched a = some (matchedSlots a.slots a.slot_nr a.match_tok) :=
      resolveMatched_nonempty a hne
    unfold ctx_try_load_object
    rw [hr]
    cases hm : matchedSlots a.slots a.slot_nr a.match_tok with
    | nil => exact absurd hm hne
    | cons s1 rest =>
      cases rest with
      | nil => rw [hm] at hlen; simp at hlen
      | cons s2 rest2 =>
        rw [hm] at hinit
        have := login_multi_ambiguous a (s1 :: s2 :: rest2) hinit
        simp [this, hm]
  · intro s t hlen hp ht hreq
    have hne : matchedSlots a.slots a.slot_nr a.match_tok ≠ [] := by
      intro hh; rw [hh] at hlen; simp at hlen
    have hr : resolveMatched a = some (matchedSlots a.slots a.slot_nr a.match_tok) :=
      resolveMatched_nonempty a hne
    unfold ctx_try_load_object
    rw [hr]
    cases hm : matchedSlots a.slots a.slot_nr a.match_tok with
    | nil => exact absurd hm hne
    | cons s1 rest =>
      cases rest with
      | nil => rw [hm] at hlen; simp at hlen
      | cons s2 rest2 =>
        rw [hm] at hp
        have := login_multi_single a (s1 :: s2 :: rest2) s hp
        simpa [this] using login_single_attempts_required a s t ht hreq

/-- Witness for C2: two initialized tokens both match an unconstrained token
filter; no login is attempted and the ambiguity warning fires. -/
theorem C2_login_at_most_one_slot_witness :
    2 ≤ (matchedSlots exArgsMulti.slots exArgsMulti.slot_nr exArgsMulti.match_tok).length ∧
    (ctx_try_load_object exArgsMulti true).loginAttempts = [] ∧
    (ctx_try_load_object exArgsMulti true).warnedMultiple = true := by
  obtain ⟨-, -, -, h4, -⟩ := C2_login_at_most_one_slot exArgsMulti
  have hm : 2 ≤ (matchedSlots exArgsMulti.slots exArgsMulti.slot_nr
      exArgsMulti.match_tok).length := by decide
  have hi : 2 ≤ (partitionInit (matchedSlots exArgsMulti.slots exArgsMulti.slot_nr
      exArgsMulti.match_tok)).1.length := by decide
  obtain ⟨ha, hw, -, -⟩ := h4 hm hi
  exact ⟨hm, ha, hw⟩

/-- An unauthenticated pass never invokes `ctx_login`. -/
lemma ctx_try_no_login_attempts (a : LookupArgs) :
    (ctx_try_load_object a false).loginAttempts = [] := by
  unfold ctx_try_load_object
  cases hr : resolveMatched a with
  | none => rfl
  | some matched => rfl

/-- Claim C10: without force-login the object is first sought without any
authentication pass; when that pass finds the object, the authenticated pass
never runs and no login is ever attempted; the authenticated pass runs only
when the unauthenticated one found nothing. -/
theorem C10_unauthenticated_pass_first :
    ∀ (a : LookupArgs),
      ((ctx_try_load_object a false).loginAttempts = []) ∧
      (a.force_login = false →
        (∀ o, (ctx_try_load_object a false).object = some o →
          ctx_load_object a = ⟨some o, [false], []⟩) ∧
        (((ctx_load_object a).passes = [false] ∧
            (ctx_load_object a).loginAttempts = []) ∨
          ((ctx_load_object a).passes = [false, true] ∧
            (ctx_try_load_object a false).object = none))) := by
  intro a
  refine ⟨ctx_try_no_login_attempts a, fun hf => ⟨?_, ?_⟩⟩
  · intro o ho
    unfold ctx_load_object
    rw [hf]
    simp [ho, ctx_try_no_login_attempts a]
  · unfold ctx_load_object
    rw [hf]
    cases ho : (ctx_try_load_object a false).object with
    | some o => exact Or.inl (by simp [ho, ctx_try_no_login_attempts a])
    | none => exact Or.inr (by simp [ho])

/-- Witness for C10: a public object found without login; the lookup ends
after the unauthenticated pass with no login attempt. -/
theorem C10_unauthenticated_pass_first_witness :
    ctx_load_object exArgsSingle = ⟨some 42, [false], []⟩ := by
  have h := (C10_unauthenticated_pass_first exArgsSingle).2 rfl
  exact h.1 42 (by decide)

/-- Claim C6: on every path through `ctx_login` — including login failure,
replacement of a cached PIN before an interactive prompt, and the
secure-keypad fallback — every `OPENSSL_free` of a PIN buffer frees an
all-zero buffer and is immediately preceded by the `OPENSSL_cleanse` that
zeroized it; and after any failing `ctx_login` the context holds no PIN. -/
theorem C6_pin_cleansed_before_freed :
    ∀ (c : PinCtx) (tok : PKCS11_TOKEN) (loggedIn uiOk : Bool)
      (entered : Option (List Nat)) (pkcs11LoginOk : Option (List Nat) → Bool),
      pinTraceSafe (ctx_login c tok loggedIn uiOk entered pkcs11LoginOk).2.2 ∧
      ((ctx_login c tok loggedIn uiOk entered pkcs11LoginOk).1 = false →
        (ctx_login c tok loggedIn uiOk entered pkcs11LoginOk).2.1.pin = none) := by
  intro c tok loggedIn uiOk entered loginOk
  unfold ctx_login ctx_get_pin ctx_destroy_pin
  repeat' split
  all_goals try simp_all [pinTraceSafe]
  all_goals repeat' split
  all_goals simp_all [pinTraceSafe]

/-- Witness for C6: a cached forced PIN, a failing `PKCS11_login`; the PIN is
gone from the context afterwards and the trace is cleanse-before-free. -/
theorem C6_pin_cleansed_before_freed_witness :
    (ctx_login pinCtxEx exTokenA false true none (fun _ => false)).2.1.pin = none ∧
    pinTraceSafe (ctx_login pinCtxEx exTokenA false true none (fun _ => false)).2.2 := by
  have h := C6_pin_cleansed_before_freed pinCtxEx exTokenA false true none
    (fun _ => false)
  exact ⟨h.2 rfl, h.1⟩

end Libp11
